import Mathlib

/-!
Shallow embedding of the core of the ResumeTailor backend
(src/backend/latex_response.py): the blank-first-page post-processor
`remove_blank_first_page`, the brace-repair logic of strategy 4 of
`compile_latex_to_pdf`, the strategy-escalation control flow of
`compile_latex_to_pdf`, and the file paths that function writes.

Python strings are modelled as lists of characters; a Python expression
that may raise is modelled with the `PyVal` type below.
-/

namespace ResumeTailor

/-- Result of evaluating a Python expression that may raise: either an
exception was raised, or a value was returned. -/
inductive PyVal (α : Type) where
  | raises : PyVal α
  | returns : α → PyVal α
deriving DecidableEq

/-- Python whitespace, as recognised by `str.split()`, `str.strip()` and
`str.rstrip()` (the ASCII whitespace characters). -/
def isPyWs (c : Char) : Bool :=
  c == ' ' || c == '\t' || c == '\n' || c == '\r' || c == '\x0b' || c == '\x0c'

/-- The zero-width space (U+200B) removed by the `.replace` call in
`remove_blank_first_page`. -/
def zeroWidthSpace : Char := '\u200B'

/-- Python `s.rstrip()`: drop trailing whitespace. -/
def pyStripRight (s : List Char) : List Char :=
  (s.reverse.dropWhile isPyWs).reverse

/-- Python `s.strip()`: drop leading and trailing whitespace. -/
def pyStrip (s : List Char) : List Char :=
  pyStripRight (s.dropWhile isPyWs)

/-- Python substring containment `pat in s`. -/
def isSubstrOf (pat : List Char) : List Char → Bool
  | [] => pat.isEmpty
  | c :: t => pat.isPrefixOf (c :: t) || isSubstrOf pat t

/-- A PyPDF2 object as inspected by `remove_blank_first_page`: its Python
truthiness and its `str(...)` serialization (which may itself raise). -/
structure PdfObj where
  truthy : Bool
  reprStr : PyVal (List Char)
deriving DecidableEq

/-- A PDF page as observed by `remove_blank_first_page`: the behaviour of
`page.extract_text()` (may raise; may return `None`), of
`page.get("/Contents")` and of `page.get("/Resources")` (each may raise or
return `None`). -/
structure Page where
  extract_text : PyVal (Option (List Char))
  getContents : PyVal (Option PdfObj)
  getResources : PyVal (Option PdfObj)
deriving DecidableEq

/-- A PDF file on disk: its raw bytes, the pages `PdfReader` exposes, and
the document metadata (if any). -/
structure PdfFile where
  bytes : List Nat
  pages : List Page
  metadata : Option (List Char)
deriving DecidableEq

/-- Step 1 of `remove_blank_first_page`: `first_page.extract_text() or ""`,
with any exception caught and replaced by the empty string. -/
def firstPageText (p : Page) : List Char :=
  match p.extract_text with
  | .raises => []
  | .returns none => []
  | .returns (some t) => t

/-- The normalised first-page text
`"".join` of `split()` then `.replace` of the zero-width space: all whitespace
removed, then all zero-width spaces removed. -/
def firstPageTextStripped (p : Page) : List Char :=
  ((firstPageText p).filter (fun c => !isPyWs c)).filter
    (fun c => c != zeroWidthSpace)

/-- The `contents_obj` local: `page_obj.get("/Contents")` with any
exception caught and replaced by `None`. -/
def contentsObjOf (p : Page) : Option PdfObj :=
  match p.getContents with
  | .raises => none
  | .returns o => o

/-- The `resources_obj` local: `page_obj.get("/Resources")` with any
exception caught and replaced by `None`. -/
def resourcesObjOf (p : Page) : Option PdfObj :=
  match p.getResources with
  | .raises => none
  | .returns o => o

/-- The `/XObject` key searched for in `str(resources_obj)`. -/
def xobjectKey : List Char := "/XObject".data

/-- The `has_xobject` heuristic: if `resources_obj` is truthy, check
whether `"/XObject"` occurs in `str(resources_obj)`; any exception (from
the serialization) leaves the flag `False`. -/
def has_xobject (p : Page) : Bool :=
  match resourcesObjOf p with
  | none => false
  | some o =>
    if o.truthy then
      match o.reprStr with
      | .raises => false
      | .returns s => isSubstrOf xobjectKey s
    else false

/-- The `contents_empty` heuristic: `True` when `contents_obj` is `None`
or falsy; otherwise `True` when `len(str(contents_obj).strip()) < 20`;
an exception while serializing leaves the conservative value `False`. -/
def contents_empty (p : Page) : Bool :=
  match contentsObjOf p with
  | none => true
  | some o =>
    if !o.truthy then true
    else
      match o.reprStr with
      | .raises => false
      | .returns s => (pyStrip s).length < 20

/-- The blankness verdict
`is_blank = (first_page_text_stripped == "") and contents_empty and (not has_xobject)`. -/
def is_blank (p : Page) : Bool :=
  (firstPageTextStripped p).isEmpty && contents_empty p && !has_xobject p

/-- What `remove_blank_first_page` does to the destination path:
raise and write nothing (`error`), copy the input byte-for-byte
(`copied`), or write a new PDF holding all pages but the first together
with the preserved metadata (`removedFirst`). -/
inductive RBFPResult where
  | error : RBFPResult
  | copied : RBFPResult
  | removedFirst : List Page → Option (List Char) → RBFPResult
deriving DecidableEq

/-- The `remove_blank_first_page` function of
src/backend/latex_response.py: raise on a zero-page input; otherwise
judge the first page by `is_blank`; a blank first page is removed unless
it is the only page, in which case (and whenever the page is not blank)
the original file is copied to the destination unchanged. -/
def remove_blank_first_page (pdf : PdfFile) : RBFPResult :=
  match pdf.pages with
  | [] => .error
  | first :: rest =>
    if is_blank first then
      if rest.isEmpty then .copied
      else .removedFirst rest pdf.metadata
    else .copied

/-- The bytes that end up at the destination path, given a serialization
function for `PdfWriter`: `none` when the call raises (nothing written),
the input bytes on the copy path, and the writer's output otherwise. -/
def destBytes (pdf : PdfFile)
    (serialize : List Page → Option (List Char) → List Nat) :
    Option (List Nat) :=
  match remove_blank_first_page pdf with
  | .error => none
  | .copied => some pdf.bytes
  | .removedFirst rest meta => some (serialize rest meta)

/-- The pages of the PDF that ends up at the destination path (`none`
when the call raises and nothing is written). -/
def destPages (pdf : PdfFile) : Option (List Page) :=
  match remove_blank_first_page pdf with
  | .error => none
  | .copied => some pdf.pages
  | .removedFirst rest _ => some rest

/-- Python `content.count(c)` for a single character: the number of
occurrences of `c` in the string. -/
def braceCount (s : List Char) (c : Char) : Nat :=
  s.count c

/-- Python `content.rstrip().endswith("\x7d")` as used by strategy 4. -/
def endsWithClose (s : List Char) : Bool :=
  match s.getLast? with
  | some c => c == '}'
  | none => false

/-- The strategy-4 removal loop: `for _ in range(k)`, each iteration
replacing `content` by `content.rstrip()[:-1]` when `content.rstrip()`
ends with a closing brace, and leaving it unchanged otherwise. -/
def removeLoop (s : List Char) : Nat → List Char
  | 0 => s
  | k + 1 =>
    let r := pyStripRight s
    if endsWithClose r then removeLoop r.dropLast k
    else removeLoop s k

/-- The brace-balancing step of strategy 4 of `compile_latex_to_pdf`:
append `(open - close)` closing braces when openers are in surplus, run
the removal loop `(close - open)` times when closers are in surplus. -/
def fixBraces (s : List Char) : List Char :=
  if braceCount s '{' > braceCount s '}' then
    s ++ List.replicate (braceCount s '{' - braceCount s '}') '}'
  else if braceCount s '}' > braceCount s '{' then
    removeLoop s (braceCount s '}' - braceCount s '{')
  else s

/-- The document-termination marker searched for and appended by
strategy 4. -/
def endMarker : List Char := "\\end{document}".data

/-- The full content repair of strategy 4: balance braces, then append
a newline and the termination marker when the marker is absent.  The
result is what is written to `fixed_<stem>.tex`. -/
def strategy4Repair (s : List Char) : List Char :=
  let s1 := fixBraces s
  if isSubstrOf endMarker s1 then s1 else s1 ++ ('\n' :: endMarker)

/-- Number of closing braces at the end of the string that the removal
loop can reach, scanning the reversed string: whitespace is skipped (the
loop rstrips before testing), closing braces are counted, and any other
character stops the scan. -/
def trailingClosersRev : List Char → Nat
  | [] => 0
  | c :: t =>
    if isPyWs c then trailingClosersRev t
    else if c == '}' then trailingClosersRev t + 1
    else 0

/-- Number of removable trailing closing braces of a string. -/
def trailingClosers (s : List Char) : Nat :=
  trailingClosersRev s.reverse

/-- The exception classes relevant to strategy 2 of
`compile_latex_to_pdf`: its `except` clause catches only
`subprocess.CalledProcessError`; any other exception is not caught
there. -/
inductive S2Exc where
  | calledProcessError : S2Exc
  | otherExc : S2Exc
deriving DecidableEq

/-- Outcome of the strategy-1 loop of `compile_latex_to_pdf`: the
expected PDF was found after some pass, the three passes ran without it
appearing, or an exception broke out of the loop (caught by the
strategy's `except Exception`). -/
inductive S1Out where
  | found : S1Out
  | notFound : S1Out
  | raised : S1Out
deriving DecidableEq

/-- The interactions of one `compile_latex_to_pdf` call with the outside
world (filesystem and `pdflatex` subprocesses), recorded per strategy:
whether each observable step raises, and what each file-existence check
returns. -/
structure CompileEnv where
  s1RunExc : Nat → Bool
  s1PdfExists : Nat → Bool
  s2Exc : Option S2Exc
  s2PdfExists : Bool
  s3Exc : Bool
  s3WrapperPdfExists : Bool
  s4Exc : Bool
  s4FixedPdfExists : Bool
  finalPdfExists : Bool

/-- The `for i in range(3)` loop of strategy 1: at pass `i`, a raised
exception aborts the loop; otherwise the expected PDF is looked for and
the function returns as soon as it exists. -/
def s1Loop (env : CompileEnv) : Nat → Nat → S1Out
  | _, 0 => .notFound
  | i, fuel + 1 =>
    if env.s1RunExc i then .raised
    else if env.s1PdfExists i then .found
    else s1Loop env (i + 1) fuel

/-- Result of a `compile_latex_to_pdf` call: the expected PDF path was
returned by strategy `k`, the final `RuntimeError` was raised after all
strategies were exhausted, or an exception escaped the function without
being caught by any strategy. -/
inductive CResult where
  | success : Nat → CResult
  | fatalError : CResult
  | uncaught : CResult
deriving DecidableEq

/-- Strategies 3 to 5 of `compile_latex_to_pdf`: the wrapper-document
strategy and the brace-repair strategy each succeed when no exception
occurred in them and their renamed PDF exists; both catch every
exception (`except Exception`); the final check accepts any file now at
the expected path and otherwise the closing `RuntimeError` is raised. -/
def strategies3to5 (env : CompileEnv) : CResult :=
  if !env.s3Exc && env.s3WrapperPdfExists then .success 3
  else if !env.s4Exc && env.s4FixedPdfExists then .success 4
  else if env.finalPdfExists then .success 5
  else .fatalError

/-- The strategy-escalation control flow of `compile_latex_to_pdf`:
strategy 1 (batchmode, three passes, broad `except Exception`),
strategy 2 (nonstopmode; its `except` clause catches only
`subprocess.CalledProcessError`, so any other exception propagates out
of the function), then strategies 3, 4 and the final existence check. -/
def compile_latex_to_pdf (env : CompileEnv) : CResult :=
  match s1Loop env 0 3 with
  | .found => .success 1
  | _ =>
    match env.s2Exc with
    | some .otherExc => .uncaught
    | some .calledProcessError => strategies3to5 env
    | none =>
      if env.s2PdfExists then .success 2
      else strategies3to5 env

/-- Whether strategy `k` finds the PDF it looks for: strategy 1 via its
pass-by-pass checks, strategies 2 to 4 when they run to their check
without an exception and the checked file exists, strategy 5 via the
final existence check. -/
def findsAt (env : CompileEnv) : Nat → Bool
  | 1 => s1Loop env 0 3 == .found
  | 2 => env.s2Exc.isNone && env.s2PdfExists
  | 3 => !env.s3Exc && env.s3WrapperPdfExists
  | 4 => !env.s4Exc && env.s4FixedPdfExists
  | 5 => env.finalPdfExists
  | _ => false

/-- A filesystem path, as a directory part and a file name, mirroring
`Path(output_dir) / name`. -/
structure FPath where
  dir : List Char
  name : List Char
deriving DecidableEq

/-- Python `Path(name).stem`: the file name with its last suffix
removed, where a name with no dot, a name whose only dot is leading, or
a name whose only dot is trailing has no suffix. -/
def pyStem (name : List Char) : List Char :=
  let extLen := (name.reverse.takeWhile (fun c => c != '.')).length
  if extLen = name.length then name
  else if extLen = 0 then name
  else if name.length - extLen - 1 = 0 then name
  else name.take (name.length - extLen - 1)

/-- Every path that `compile_latex_to_pdf` itself can write to or move a
file onto, for a given input file and output directory: the wrapper
document `wrapper_<stem>.tex`, the repaired document `fixed_<stem>.tex`,
their compiled outputs `wrapper_<stem>.pdf` and `fixed_<stem>.pdf`
(removed by the renames), and the expected output `<stem>.pdf` (the
rename target). -/
def compileWritePaths (texFile : FPath) (outDir : List Char) : List FPath :=
  let stem := pyStem texFile.name
  [ ⟨outDir, "wrapper_".data ++ stem ++ ".tex".data⟩,
    ⟨outDir, "fixed_".data ++ stem ++ ".tex".data⟩,
    ⟨outDir, "wrapper_".data ++ stem ++ ".pdf".data⟩,
    ⟨outDir, "fixed_".data ++ stem ++ ".pdf".data⟩,
    ⟨outDir, stem ++ ".pdf".data⟩ ]

/-- Apply a sequence of file writes (or removals, written as `none`) to
a filesystem, later writes overriding earlier ones. -/
def applyWrites (fs : FPath → Option (List Char)) :
    List (FPath × Option (List Char)) → FPath → Option (List Char)
  | [] => fs
  | (p, v) :: rest => applyWrites (fun q => if q = p then v else fs q) rest

theorem tcRev_dropWhile (l : List Char) :
    trailingClosersRev (l.dropWhile isPyWs) = trailingClosersRev l := by
  induction l with
  | nil => rfl
  | cons c t ih =>
    cases hc : isPyWs c with
    | true => simp [List.dropWhile_cons, hc, trailingClosersRev, ih]
    | false => simp [List.dropWhile_cons, hc]

theorem dropWhile_head_false {p : Char → Bool} {l : List Char} {c : Char}
    {t : List Char} (h : l.dropWhile p = c :: t) : p c = false := by
  induction l with
  | nil => simp at h
  | cons a l ih =>
    cases ha : p a with
    | true => exact ih (by simpa [List.dropWhile_cons, ha] using h)
    | false =>
      simp [List.dropWhile_cons, ha] at h
      obtain ⟨rfl, rfl⟩ := h
      exact ha

theorem count_takeWhile_ws_zero (l : List Char) (c : Char)
    (hc : isPyWs c = false) : (l.takeWhile isPyWs).count c = 0 := by
  rw [List.count_eq_zero]
  intro hmem
  have := List.mem_takeWhile_imp hmem
  rw [this] at hc
  exact Bool.true_eq_false.mp hc

theorem removeStep (s : List Char) (h : 1 ≤ trailingClosers s) :
    ∃ t : List Char,
      endsWithClose (pyStripRight s) = true ∧
      (pyStripRight s).dropLast = t.reverse ∧
      braceCount t.reverse '}' + 1 = braceCount s '}' ∧
      braceCount t.reverse '{' = braceCount s '{' ∧
      trailingClosers t.reverse + 1 = trailingClosers s := by
  have htc : trailingClosersRev (s.reverse.dropWhile isPyWs) = trailingClosers s :=
    tcRev_dropWhile s.reverse
  match hd : s.reverse.dropWhile isPyWs with
  | [] =>
    rw [hd] at htc
    simp [trailingClosersRev] at htc
    omega
  | c :: t =>
    have hcw : isPyWs c = false := dropWhile_head_false hd
    rw [hd] at htc
    have hc : c = '}' := by
      by_contra hne
      have : (c == '}') = false := by simpa using hne
      simp [trailingClosersRev, hcw, this] at htc
      omega
    subst hc
    refine ⟨t, ?_, ?_, ?_, ?_, ?_⟩
    · simp [endsWithClose, pyStripRight, hd, List.getLast?_concat]
    · simp [pyStripRight, hd, List.dropLast_concat]
    · have hsplit : s.reverse.takeWhile isPyWs ++ ('}' :: t) = s.reverse := by
        rw [← hd]; exact List.takeWhile_append_dropWhile isPyWs s.reverse
      have := congrArg (List.count '}') hsplit
      rw [List.count_append, count_takeWhile_ws_zero _ _ (by decide),
        List.count_reverse] at this
      simp only [braceCount, List.count_reverse, List.count_cons] at *
      simp at this
      omega
    · have hsplit : s.reverse.takeWhile isPyWs ++ ('}' :: t) = s.reverse := by
        rw [← hd]; exact List.takeWhile_append_dropWhile isPyWs s.reverse
      have := congrArg (List.count '{') hsplit
      rw [List.count_append, count_takeWhile_ws_zero _ _ (by decide),
        List.count_reverse] at this
      simp only [braceCount, List.count_reverse, List.count_cons] at *
      simp at this
      omega
    · have hw : isPyWs '}' = false := by decide
      have : trailingClosersRev ('}' :: t) = trailingClosersRev t + 1 := by
        simp [trailingClosersRev, hw]
      rw [this] at htc
      have ht : trailingClosers t.reverse = trailingClosersRev t := by
        simp [trailingClosers]
      omega

theorem removeLoop_counts : ∀ (k : Nat) (s : List Char),
    k ≤ trailingClosers s →
    braceCount (removeLoop s k) '}' + k = braceCount s '}' ∧
    braceCount (removeLoop s k) '{' = braceCount s '{' ∧
    trailingClosers (removeLoop s k) + k = trailingClosers s := by
  intro k
  induction k with
  | zero => intro s _; simp [removeLoop]
  | succ k ih =>
    intro s hk
    obtain ⟨t, hend, hdrop, hcb, hob, htc⟩ := removeStep s (by omega)
    have hstep : removeLoop s (k + 1) = removeLoop t.reverse k := by
      rw [removeLoop, hend]
      simp only [if_true, hdrop]
    rw [hstep]
    have hk' : k ≤ trailingClosers t.reverse := by omega
    obtain ⟨h1, h2, h3⟩ := ih t.reverse hk'
    refine ⟨by omega, by omega, by omega⟩

theorem copied_of_first_not_blank (pf : PdfFile) (hne : pf.pages ≠ [])
    (h : ∀ q qs, pf.pages = q :: qs → is_blank q = false ∨ qs = []) :
    remove_blank_first_page pf = .copied := by
  obtain ⟨b, pages, m⟩ := pf
  cases pages with
  | nil => exact absurd rfl hne
  | cons q qs =>
    rcases h q qs rfl with hq | hq
    · simp [remove_blank_first_page, hq]
    · subst hq
      by_cases hb : is_blank q = true <;> simp [remove_blank_first_page, hb]

theorem removedFirst_inv (pf : PdfFile) (r : List Page)
    (mt : Option (List Char))
    (h : remove_blank_first_page pf = .removedFirst r mt) :
    r ≠ [] ∧ ∃ p, pf.pages = p :: r ∧ is_blank p = true ∧ mt = pf.metadata := by
  obtain ⟨b, pages, m⟩ := pf
  cases pages with
  | nil => simp [remove_blank_first_page] at h
  | cons p rest =>
    by_cases hb : is_blank p = true
    · cases rest with
      | nil => simp [remove_blank_first_page, hb] at h
      | cons q qs =>
        simp only [remove_blank_first_page, hb, if_true, List.isEmpty_cons,
          Bool.false_eq_true, if_false, RBFPResult.removedFirst.injEq] at h
        obtain ⟨hr, hm⟩ := h
        subst hr
        exact ⟨by simp, p, rfl, hb, hm.symm⟩
    · simp [remove_blank_first_page, hb] at h

theorem copied_pages_ne_nil (pf : PdfFile)
    (h : remove_blank_first_page pf = .copied) : pf.pages ≠ [] := by
  obtain ⟨b, pages, m⟩ := pf
  cases pages with
  | nil => simp [remove_blank_first_page] at h
  | cons p rest => simp

/-- Claim C7: on a zero-page input PDF, `remove_blank_first_page` raises a
fatal `RuntimeError` before opening the destination, so no output file is
created and any file already at the destination is untouched. -/
theorem claim7_thm (bytes : List Nat) (meta : Option (List Char))
    (serialize : List Page → Option (List Char) → List Nat) :
    remove_blank_first_page ⟨bytes, [], meta⟩ = .error ∧
    destBytes ⟨bytes, [], meta⟩ serialize = none := by
  constructor <;> rfl

/-- Claim C8: when `extract_text()` on the first page raises, the function
falls back to the empty string and the blankness decision proceeds exactly
as for a page with no extracted text; the exception is not propagated. -/
theorem claim8_thm (bytes : List Nat) (meta : Option (List Char))
    (p : Page) (rest : List Page) (h : p.extract_text = .raises) :
    remove_blank_first_page ⟨bytes, p :: rest, meta⟩ =
      remove_blank_first_page
        ⟨bytes, { p with extract_text := .returns (some []) } :: rest, meta⟩ ∧
    remove_blank_first_page ⟨bytes, p :: rest, meta⟩ ≠ .error := by
  obtain ⟨et, gc, gr⟩ := p
  simp only at h
  subst h
  have hsame :
      is_blank ⟨PyVal.raises, gc, gr⟩ = is_blank ⟨.returns (some []), gc, gr⟩ := by
    simp [is_blank, firstPageTextStripped, firstPageText, contents_empty,
      contentsObjOf, has_xobject, resourcesObjOf]
  constructor
  · simp only [remove_blank_first_page, hsame]
  · by_cases hb : is_blank (⟨PyVal.raises, gc, gr⟩ : Page) = true <;>
      cases rest <;> simp [remove_blank_first_page, hb]

/-- Claim C9: when the serialized inspection of a present, truthy contents
object raises, `contents_empty` keeps its conservative `False`, the first
page is judged non-blank, and the destination becomes a byte-for-byte copy
of the input. -/
theorem claim9_thm (bytes : List Nat) (meta : Option (List Char))
    (p : Page) (rest : List Page) (o : PdfObj)
    (serialize : List Page → Option (List Char) → List Nat)
    (h1 : p.getContents = .returns (some o))
    (h2 : o.truthy = true) (h3 : o.reprStr = .raises) :
    contents_empty p = false ∧ is_blank p = false ∧
    remove_blank_first_page ⟨bytes, p :: rest, meta⟩ = .copied ∧
    destBytes ⟨bytes, p :: rest, meta⟩ serialize = some bytes := by
  have hce : contents_empty p = false := by
    simp [contents_empty, contentsObjOf, h1, h2, h3]
  have hib : is_blank p = false := by
    simp [is_blank, hce]
  refine ⟨hce, hib, ?_, ?_⟩ <;>
    simp [remove_blank_first_page, destBytes, hib]

/-- Claim C2: on any input with at least one page the destination PDF has
either as many pages as the input or one fewer, never zero; and a one-page
input is always copied with its page intact. -/
theorem claim2_thm (pdf : PdfFile) (h : pdf.pages ≠ []) :
    ∃ out : List Page, destPages pdf = some out ∧
      (out.length = pdf.pages.length ∨ out.length + 1 = pdf.pages.length) ∧
      1 ≤ out.length ∧
      (pdf.pages.length = 1 →
        remove_blank_first_page pdf = .copied ∧ out = pdf.pages) := by
  obtain ⟨bytes, pages, meta⟩ := pdf
  cases pages with
  | nil => exact absurd rfl h
  | cons p rest =>
    by_cases hb : is_blank p = true
    · cases rest with
      | nil =>
        exact ⟨[p], by simp [destPages, remove_blank_first_page, hb]⟩
      | cons q qs =>
        refine ⟨q :: qs, ?_, ?_, ?_, ?_⟩ <;>
          simp [destPages, remove_blank_first_page, hb]
    · refine ⟨p :: rest, ?_, ?_, ?_, ?_⟩ <;>
        simp [destPages, remove_blank_first_page, hb]

/-- Claim C2 witness at a one-page blank PDF. -/
theorem claim2_witness :
    ∃ out : List Page,
      destPages ⟨[0], [⟨.returns (some []), .returns none, .returns none⟩],
        none⟩ = some out ∧
      (out.length = 1 ∨ out.length + 1 = 1) ∧
      1 ≤ out.length ∧
      (1 = 1 →
        remove_blank_first_page
          ⟨[0], [⟨.returns (some []), .returns none, .returns none⟩], none⟩ =
          .copied ∧
        out = [⟨.returns (some []), .returns none, .returns none⟩]) :=
  claim2_thm ⟨[0], [⟨.returns (some []), .returns none, .returns none⟩], none⟩
    (by decide)

/-- A page with no extractable text, no contents object and no resources:
judged blank by the heuristic. -/
def blankPage : Page := ⟨.returns (some []), .returns none, .returns none⟩

/-- A page whose extracted text is the single letter x: judged non-blank. -/
def textPage : Page := ⟨.returns (some "x".data), .returns none, .returns none⟩

/-- A 23-character serialization ending in five spaces; its stripped length
is 18. -/
def longPaddedRepr : List Char := "aaaaaaaaaaaaaaaaaa     ".data

/-- A page with no text and no images whose contents object serializes to
23 characters padded with trailing spaces: the code strips the whitespace
before comparing against the 20-character threshold and judges the page
blank although the serialized representation is not shorter than 20
characters. -/
def paddedContentsPage : Page :=
  ⟨.returns (some []), .returns (some ⟨true, .returns longPaddedRepr⟩),
    .returns none⟩

/-- Claim C1 counterexample: (a) a single-page PDF whose page satisfies all
three blankness conditions is copied, not shortened, so the stated
equivalence fails for one-page inputs; (b) a first page whose serialized
contents representation has 23 characters (not shorter than 20) is still
removed, because the code strips whitespace before applying the threshold,
contradicting the claim's unstripped 20-character condition. -/
theorem claim1_cex :
    (is_blank blankPage = true ∧
      remove_blank_first_page ⟨[0], [blankPage], none⟩ = .copied) ∧
    (longPaddedRepr.length = 23 ∧ ¬ longPaddedRepr.length < 20 ∧
      firstPageTextStripped paddedContentsPage = [] ∧
      has_xobject paddedContentsPage = false ∧
      remove_blank_first_page ⟨[0], [paddedContentsPage, textPage], none⟩ =
        .removedFirst [textPage] none) := by decide

/-- Claim C1, amended: for every input PDF with at least two pages, the
destination omits the first page if and only if the first page's stripped
extracted text is empty, the contents heuristic judges the content stream
empty (absent, falsy, or whitespace-stripped serialization shorter than 20
characters), and the resources hold no XObject reference; and for any
page count, whenever the page is not judged blank the destination is a
byte-for-byte copy of the input. -/
theorem claim1_amended_thm (bytes : List Nat) (meta : Option (List Char))
    (p : Page) (rest : List Page)
    (serialize : List Page → Option (List Char) → List Nat) :
    (rest ≠ [] →
      (remove_blank_first_page ⟨bytes, p :: rest, meta⟩ =
          .removedFirst rest meta ↔
        firstPageTextStripped p = [] ∧ contents_empty p = true ∧
          has_xobject p = false)) ∧
    (is_blank p = false →
      destBytes ⟨bytes, p :: rest, meta⟩ serialize = some bytes) := by
  constructor
  · intro h
    have hne : rest.isEmpty = false := by
      cases rest
      · exact absurd rfl h
      · rfl
    by_cases hb : is_blank p = true
    · have hb' := hb
      simp only [is_blank, Bool.and_eq_true, Bool.not_eq_true',
        List.isEmpty_iff] at hb'
      simp [remove_blank_first_page, hb, hne, hb'.1.1, hb'.1.2, hb'.2]
    · have hb' : is_blank p = false := by simpa using hb
      have hnc : ¬ (firstPageTextStripped p = [] ∧ contents_empty p = true ∧
          has_xobject p = false) := by
        intro ⟨ht, hc, hx⟩
        simp [is_blank, List.isEmpty_iff, ht, hc, hx] at hb'
      simp [remove_blank_first_page, hb', hnc]
  · intro hib
    cases rest <;> simp [destBytes, remove_blank_first_page, hib]

/-- Claim C1 witness: the amended equivalence evaluated on a two-page PDF
with a blank first page, and the byte-for-byte-copy clause evaluated on a
one-page PDF whose page has content. -/
theorem claim1_witness :
    (remove_blank_first_page ⟨[0], [blankPage, textPage], none⟩ =
        .removedFirst [textPage] none ↔
      firstPageTextStripped blankPage = [] ∧
        contents_empty blankPage = true ∧ has_xobject blankPage = false) ∧
    destBytes ⟨[9], [textPage], none⟩ (fun _ _ => [7]) = some [9] :=
  ⟨(claim1_amended_thm [0] none blankPage [textPage] (fun _ _ => [7])).1
      (by decide),
    (claim1_amended_thm [9] none textPage [] (fun _ _ => [7])).2
      (by decide)⟩

/-- Claim C6 counterexample: on a three-page PDF whose first two pages are
blank, the first run removes page one, and a second run on the produced
output removes another page instead of copying it byte-for-byte, so the
post-processor is not idempotent. -/
theorem claim6_cex :
    remove_blank_first_page ⟨[0], [blankPage, blankPage, textPage], none⟩ =
      .removedFirst [blankPage, textPage] none ∧
    remove_blank_first_page ⟨[1], [blankPage, textPage], none⟩ =
      .removedFirst [textPage] none := by decide

/-- Claim C6, amended: a second run of the post-processor on its own
already-produced output writes a byte-for-byte copy of that output
provided that the output's first page is not judged blank or the output
has exactly one page (in particular always when the first run already
copied). -/
theorem claim6_amended_thm (pdf : PdfFile) (out : PdfFile)
    (h1 : (remove_blank_first_page pdf = .copied ∧ out.pages = pdf.pages) ∨
      ∃ meta, remove_blank_first_page pdf = .removedFirst out.pages meta)
    (h2 : ∀ q qs, out.pages = q :: qs → is_blank q = false ∨ qs = []) :
    remove_blank_first_page out = .copied := by
  have hne : out.pages ≠ [] := by
    rcases h1 with ⟨hcop, hpages⟩ | ⟨meta, hrem⟩
    · rw [hpages]
      exact copied_pages_ne_nil pdf hcop
    · exact (removedFirst_inv pdf out.pages meta hrem).1
  exact copied_of_first_not_blank out hne h2

/-- Claim C6 witness: a two-page input with a blank first page, its
one-page output, and the second run copying that output unchanged. -/
theorem claim6_witness :
    remove_blank_first_page ⟨[1], [textPage], none⟩ = .copied :=
  claim6_amended_thm ⟨[0], [blankPage, textPage], none⟩
    ⟨[1], [textPage], none⟩ (Or.inr ⟨none, by decide⟩)
    (fun q qs hq => Or.inr (by injection hq with h1 h2; exact h2.symm))

/-- Claim C7 witness: a concrete zero-page input. -/
theorem claim7_witness :
    remove_blank_first_page ⟨[3], [], none⟩ = .error ∧
    destBytes ⟨[3], [], none⟩ (fun _ _ => [7]) = none :=
  claim7_thm [3] none (fun _ _ => [7])

/-- A page whose text extraction raises. -/
def raisingTextPage : Page := ⟨.raises, .returns none, .returns none⟩

/-- Claim C8 witness: the equality of outcomes evaluated on a one-page PDF
whose text extraction raises. -/
theorem claim8_witness :
    remove_blank_first_page ⟨[0], [raisingTextPage], none⟩ =
      remove_blank_first_page
        ⟨[0], [{ raisingTextPage with extract_text := .returns (some []) }],
          none⟩ ∧
    remove_blank_first_page ⟨[0], [raisingTextPage], none⟩ ≠ .error :=
  claim8_thm [0] none raisingTextPage [] rfl

/-- A contents object that is truthy but whose serialization raises. -/
def raisingReprObj : PdfObj := ⟨true, .raises⟩

/-- A page with no text and no images whose contents object cannot be
serialized. -/
def raisingContentsPage : Page :=
  ⟨.returns (some []), .returns (some raisingReprObj), .returns none⟩

/-- Claim C9 witness: the conservative non-blank verdict evaluated on a
one-page PDF whose contents inspection raises. -/
theorem claim9_witness :
    contents_empty raisingContentsPage = false ∧
    is_blank raisingContentsPage = false ∧
    remove_blank_first_page ⟨[5], [raisingContentsPage], none⟩ = .copied ∧
    destBytes ⟨[5], [raisingContentsPage], none⟩ (fun _ _ => [7]) =
      some [5] :=
  claim9_thm [5] none raisingContentsPage [] raisingReprObj (fun _ _ => [7])
    rfl rfl rfl

theorem strategy4Repair_balanced (s : List Char)
    (h : braceCount (fixBraces s) '{' = braceCount (fixBraces s) '}') :
    braceCount (strategy4Repair s) '{' = braceCount (strategy4Repair s) '}' := by
  have h1 : List.count '{' ('\n' :: endMarker) = 1 := by decide
  have h2 : List.count '}' ('\n' :: endMarker) = 1 := by decide
  unfold strategy4Repair
  by_cases hm : isSubstrOf endMarker (fixBraces s) = true
  · simpa [hm] using h
  · have hm' : isSubstrOf endMarker (fixBraces s) = false := by simpa using hm
    simp only [hm', Bool.false_eq_true, if_false, braceCount,
      List.count_append, h1, h2]
    simp only [braceCount] at h
    omega

/-- Claim C3 counterexample: the document made of two closing braces
followed by a letter has a closer surplus of two, yet the removal loop
strips nothing (the document does not end with a closing brace), and the
repaired document written by strategy 4 still has unequal brace counts. -/
theorem claim3_cex :
    braceCount "\x7d\x7da".data '}' = braceCount "\x7d\x7da".data '{' + 2 ∧
    removeLoop "\x7d\x7da".data 2 = "\x7d\x7da".data ∧
    braceCount (strategy4Repair "\x7d\x7da".data) '{' ≠
      braceCount (strategy4Repair "\x7d\x7da".data) '}' := by decide

/-- Claim C3, amended: for every source document whose closing-brace count
exceeds its opening-brace count by S at least 1 and which ends (ignoring
interleaved trailing whitespace) in at least S closing braces, strategy 4
removes exactly S trailing closing braces, leaves the opening-brace count
unchanged, and the repaired document written to fixed_<stem>.tex has equal
brace counts. -/
theorem claim3_amended_thm (s : List Char) (S : Nat)
    (h1 : braceCount s '}' = braceCount s '{' + S)
    (h2 : 1 ≤ S) (h3 : S ≤ trailingClosers s) :
    braceCount (fixBraces s) '}' + S = braceCount s '}' ∧
    braceCount (fixBraces s) '{' = braceCount s '{' ∧
    braceCount (strategy4Repair s) '{' = braceCount (strategy4Repair s) '}' := by
  have hfix : fixBraces s = removeLoop s S := by
    unfold fixBraces
    rw [if_neg (by omega), if_pos (by omega),
      show braceCount s '}' - braceCount s '{' = S from by omega]
  obtain ⟨hc, ho, _⟩ := removeLoop_counts S s h3
  refine ⟨by rw [hfix]; omega, by rw [hfix]; omega, ?_⟩
  exact strategy4Repair_balanced s (by rw [hfix]; omega)

/-- Claim C3 witness: the amended statement evaluated on a document with
one surplus closing brace at its end. -/
theorem claim3_witness :
    braceCount (fixBraces "\x7b\x7d\x7d".data) '}' + 1 = braceCount "\x7b\x7d\x7d".data '}' ∧
    braceCount (fixBraces "\x7b\x7d\x7d".data) '{' = braceCount "\x7b\x7d\x7d".data '{' ∧
    braceCount (strategy4Repair "\x7b\x7d\x7d".data) '{' =
      braceCount (strategy4Repair "\x7b\x7d\x7d".data) '}' :=
  claim3_amended_thm "\x7b\x7d\x7d".data 1 (by decide) (by decide) (by decide)

/-- Claim C4: for every source document whose opening-brace count exceeds
its closing-brace count by N at least 1, strategy 4 appends exactly N
closing braces, and the repaired document (with the termination marker
appended when absent) has equal brace counts. -/
theorem claim4_thm (s : List Char) (N : Nat)
    (h1 : braceCount s '{' = braceCount s '}' + N) (h2 : 1 ≤ N) :
    fixBraces s = s ++ List.replicate N '}' ∧
    braceCount (strategy4Repair s) '{' = braceCount (strategy4Repair s) '}' := by
  have hfix : fixBraces s = s ++ List.replicate N '}' := by
    unfold fixBraces
    rw [if_pos (by omega),
      show braceCount s '{' - braceCount s '}' = N from by omega]
  have hrep1 : List.count '{' (List.replicate N '}') = 0 := by
    simp [List.count_replicate]
  have hrep2 : List.count '}' (List.replicate N '}') = N := by
    simp [List.count_replicate]
  refine ⟨hfix, strategy4Repair_balanced s ?_⟩
  rw [hfix]
  simp only [braceCount, List.count_append, hrep1, hrep2] at *
  omega

/-- Claim C4 witness: the append behaviour evaluated on a document missing
one closing brace. -/
theorem claim4_witness :
    fixBraces "\x7ba".data = "\x7ba".data ++ List.replicate 1 '}' ∧
    braceCount (strategy4Repair "\x7ba".data) '{' =
      braceCount (strategy4Repair "\x7ba".data) '}' :=
  claim4_thm "\x7ba".data 1 (by decide) (by decide)

theorem compile_eq_chain (env : CompileEnv)
    (h : env.s2Exc ≠ some S2Exc.otherExc) :
    compile_latex_to_pdf env =
      (if findsAt env 1 then CResult.success 1
       else if findsAt env 2 then CResult.success 2
       else if findsAt env 3 then CResult.success 3
       else if findsAt env 4 then CResult.success 4
       else if findsAt env 5 then CResult.success 5
       else CResult.fatalError) := by
  unfold compile_latex_to_pdf strategies3to5
  cases hs : s1Loop env 0 3 with
  | found => simp [findsAt, hs]
  | notFound =>
    cases he : env.s2Exc with
    | none => simp [findsAt, hs, he]
    | some k =>
      cases k with
      | calledProcessError => simp [findsAt, hs, he]
      | otherExc => exact absurd he h
  | raised =>
    cases he : env.s2Exc with
    | none => simp [findsAt, hs, he]
    | some k =>
      cases k with
      | calledProcessError => simp [findsAt, hs, he]
      | otherExc => exact absurd he h

/-- Counterexample environment for claim C5: strategy 1 runs its three
passes without producing the PDF, strategy 2 raises an exception that is
not a `subprocess.CalledProcessError`, and a file does exist at the
expected output path. -/
def claim5CexEnv : CompileEnv :=
  ⟨fun _ => false, fun _ => false, some S2Exc.otherExc, false,
    false, false, false, false, true⟩

/-- Claim C5 counterexample: strategy 2 catches only
`subprocess.CalledProcessError`, so any other exception raised inside it
escapes `compile_latex_to_pdf` uncaught, aborting the pipeline even
though the final existence check (strategy 5) would have found the
expected output file; hence not every strategy's internal exception is
swallowed, and failure is not equivalent to exhaustion of all
strategies. -/
theorem claim5_cex :
    compile_latex_to_pdf claim5CexEnv = .uncaught ∧
    findsAt claim5CexEnv 5 = true := by decide

/-- Claim C5, amended: provided no exception other than
`subprocess.CalledProcessError` is raised inside strategy 2 (whose
`except` clause catches only that class), the strategies run in the fixed
order 1 through 5, each later strategy only when no earlier strategy
found the expected output file, the function returns the expected path
exactly when some strategy finds a file there, and the final fatal error
is raised exactly when all five strategies find nothing; exceptions
inside strategies 1, 3 and 4 are always swallowed. -/
theorem claim5_amended_thm (env : CompileEnv)
    (h : env.s2Exc ≠ some S2Exc.otherExc) :
    (compile_latex_to_pdf env = .success 1 ↔ findsAt env 1 = true) ∧
    (compile_latex_to_pdf env = .success 2 ↔
      findsAt env 1 = false ∧ findsAt env 2 = true) ∧
    (compile_latex_to_pdf env = .success 3 ↔
      findsAt env 1 = false ∧ findsAt env 2 = false ∧
      findsAt env 3 = true) ∧
    (compile_latex_to_pdf env = .success 4 ↔
      findsAt env 1 = false ∧ findsAt env 2 = false ∧
      findsAt env 3 = false ∧ findsAt env 4 = true) ∧
    (compile_latex_to_pdf env = .success 5 ↔
      findsAt env 1 = false ∧ findsAt env 2 = false ∧
      findsAt env 3 = false ∧ findsAt env 4 = false ∧
      findsAt env 5 = true) ∧
    (compile_latex_to_pdf env = .fatalError ↔
      findsAt env 1 = false ∧ findsAt env 2 = false ∧
      findsAt env 3 = false ∧ findsAt env 4 = false ∧
      findsAt env 5 = false) := by
  rw [compile_eq_chain env h]
  cases h1 : findsAt env 1 <;> cases h2 : findsAt env 2 <;>
    cases h3 : findsAt env 3 <;> cases h4 : findsAt env 4 <;>
    cases h5 : findsAt env 5 <;> simp

/-- Witness environment for claim C5: nothing raises, no strategy's own
check finds a file, but the final existence check does. -/
def claim5WitnessEnv : CompileEnv :=
  ⟨fun _ => false, fun _ => false, none, false,
    false, false, false, false, true⟩

/-- Claim C5 witness: the amended characterization evaluated on the
witness environment, where the pipeline succeeds at strategy 5. -/
theorem claim5_witness :
    compile_latex_to_pdf claim5WitnessEnv = .success 5 :=
  ((claim5_amended_thm claim5WitnessEnv (by decide)).2.2.2.2.1).mpr
    ⟨by decide, by decide, by decide, by decide, by decide⟩

theorem pyStem_append_tex (body : List Char) (hb : body ≠ []) :
    pyStem (body ++ ".tex".data) = body := by
  have hrev : (body ++ ".tex".data).reverse =
      'x' :: 'e' :: 't' :: '.' :: body.reverse := by
    rw [List.reverse_append]
    rfl
  have hlen : (body ++ ".tex".data).length = body.length + 4 := by
    simp [List.length_append]
  have htw : (('x' :: 'e' :: 't' :: '.' :: body.reverse).takeWhile
      (fun c => c != '.')).length = 3 := by
    have d1 : (('x' : Char) != '.') = true := by decide
    have d2 : (('e' : Char) != '.') = true := by decide
    have d3 : (('t' : Char) != '.') = true := by decide
    have d4 : (('.' : Char) != '.') = false := by decide
    simp [List.takeWhile_cons, d1, d2, d3, d4]
  have hbl : body.length ≠ 0 := by
    cases body
    · exact absurd rfl hb
    · simp
  unfold pyStem
  rw [hrev, htw, hlen]
  rw [if_neg (by omega), if_neg (by omega), if_neg (by omega)]
  rw [show body.length + 4 - 3 - 1 = body.length from by omega]
  exact List.take_left body ".tex".data

theorem applyWrites_ne (q : FPath) :
    ∀ (writes : List (FPath × Option (List Char)))
      (fs : FPath → Option (List Char)),
      (∀ pv ∈ writes, pv.1 ≠ q) → applyWrites fs writes q = fs q := by
  intro writes
  induction writes with
  | nil => intro fs _; rfl
  | cons pv rest ih =>
    intro fs hall
    obtain ⟨p, v⟩ := pv
    rw [applyWrites, ih _ (fun x hx => hall x (List.mem_cons_of_mem _ hx))]
    have hpq : p ≠ q := hall (p, v) (List.mem_cons_self _ _)
    have hqp : ¬ q = p := fun hq => hpq hq.symm
    simp [hqp]

theorem texFile_not_written (texDir outDir body : List Char) :
    (⟨texDir, body ++ ".tex".data⟩ : FPath) ∉
      compileWritePaths ⟨texDir, body ++ ".tex".data⟩ outDir := by
  have lt4 : (".tex".data).length = 4 := rfl
  have lp4 : (".pdf".data).length = 4 := rfl
  have lw8 : ("wrapper_".data).length = 8 := rfl
  have lf6 : ("fixed_".data).length = 6 := rfl
  intro hmem
  simp only [compileWritePaths, List.mem_cons, List.not_mem_nil,
    or_false] at hmem
  by_cases hb : body = []
  · subst hb
    have hstem : pyStem (([] : List Char) ++ ".tex".data) = ".tex".data := by
      decide
    rw [hstem] at hmem
    rcases hmem with h | h | h | h | h <;>
      · have hn := congrArg FPath.name h
        simp only at hn
        exact absurd hn (by decide)
  · rw [pyStem_append_tex body hb] at hmem
    rcases hmem with h | h | h | h | h
    · have hn := congrArg (fun p : FPath => p.name.length) h
      simp only [List.length_append, lt4, lw8] at hn
      omega
    · have hn := congrArg (fun p : FPath => p.name.length) h
      simp only [List.length_append, lt4, lf6] at hn
      omega
    · have hn := congrArg (fun p : FPath => p.name.length) h
      simp only [List.length_append, lt4, lp4, lw8] at hn
      omega
    · have hn := congrArg (fun p : FPath => p.name.length) h
      simp only [List.length_append, lt4, lp4, lf6] at hn
      omega
    · have hn := congrArg FPath.name h
      simp only at hn
      have := List.append_cancel_left hn
      exact absurd this (by decide)

/-- Claim C10: `compile_latex_to_pdf` never writes to the path of the
input tex file: every path the function itself writes or renames onto
(`wrapper_<stem>.tex`, `fixed_<stem>.tex`, their compiled outputs, and
the expected `<stem>.pdf`) differs from the input path, so applying any
such sequence of writes leaves the contents stored at the input tex path
unchanged. -/
theorem claim10_thm (texDir outDir body : List Char)
    (fs : FPath → Option (List Char))
    (writes : List (FPath × Option (List Char)))
    (hw : ∀ pv ∈ writes,
      pv.1 ∈ compileWritePaths ⟨texDir, body ++ ".tex".data⟩ outDir) :
    (⟨texDir, body ++ ".tex".data⟩ : FPath) ∉
      compileWritePaths ⟨texDir, body ++ ".tex".data⟩ outDir ∧
    applyWrites fs writes ⟨texDir, body ++ ".tex".data⟩ =
      fs ⟨texDir, body ++ ".tex".data⟩ := by
  have hnot := texFile_not_written texDir outDir body
  refine ⟨hnot, applyWrites_ne _ writes fs ?_⟩
  intro pv hpv heq
  exact hnot (heq ▸ hw pv hpv)

/-- Claim C10 witness: a concrete invocation whose write sequence touches
every path the function can write, leaving the input tex file's contents
unchanged. -/
theorem claim10_witness :
    (⟨"src".data, "a".data ++ ".tex".data⟩ : FPath) ∉
      compileWritePaths ⟨"src".data, "a".data ++ ".tex".data⟩ "out".data ∧
    applyWrites (fun _ => some "orig".data)
      ((compileWritePaths ⟨"src".data, "a".data ++ ".tex".data⟩
          "out".data).map (fun p => (p, some "new".data)))
      ⟨"src".data, "a".data ++ ".tex".data⟩ =
      some "orig".data :=
  claim10_thm "src".data "out".data "a".data (fun _ => some "orig".data)
    ((compileWritePaths ⟨"src".data, "a".data ++ ".tex".data⟩
        "out".data).map (fun p => (p, some "new".data)))
    (by decide)

end ResumeTailor
